import Mathlib

/- Shallow embedding of cloudabi-utils: the YAML-manifest value-tree builder and
   capability resolver (src/cloudabi-run/cloudabi-run.c) and the lazy sequence
   iterator of the binary codec (src/libcloudabi/argdata_seq_next.c).

   Fatal `exit(127)` paths of the C code are modelled as `Except Err` errors;
   the top-level `main` control flow is modelled separately to reason about
   exit statuses.  OS interaction (fstat, open, getaddrinfo, socket/bind/listen,
   program_exec, the emulator) is abstracted into an oracle structure `Sys`.
   Strings are modelled as NUL-free byte strings, so C `strcmp` equality
   coincides with string equality and `value + event.length` coincides with the
   end of the string. -/

/- Numeric constants of the C environment (LP64 Linux). -/

def INT_MAX : Nat := 2147483647
def INTMAX_MAX : Int := 2 ^ 63 - 1
def INTMAX_MIN : Int := -(2 ^ 63)
def UINTMAX_MAX : Nat := 2 ^ 64 - 1
def STDOUT_FILENO : Nat := 1
def AF_UNIX : Nat := 1
def SOCK_STREAM : Nat := 1
def SOCK_DGRAM : Nat := 2
def SOCK_SEQPACKET : Nat := 5
def EOPNOTSUPP : Nat := 95
def EINVAL : Nat := 22
def UNIX_PATH_MAX : Nat := 108

/- YAML event stream (the tokenizer is an external collaborator; we model its
   output events).  Scalar / collection-start events carry an optional tag. -/

inductive Event where
  | streamStart
  | documentStart
  | documentEnd
  | streamEnd
  | scalar (tag : Option String) (value : String)
  | mappingStart (tag : Option String)
  | mappingEnd
  | sequenceStart (tag : Option String)
  | sequenceEnd
  | noEvent
deriving DecidableEq, Repr

def yamlMapTag : String := "tag:yaml.org,2002:map"
def yamlStrTag : String := "tag:yaml.org,2002:str"
def yamlBoolTag : String := "tag:yaml.org,2002:bool"
def yamlIntTag : String := "tag:yaml.org,2002:int"
def yamlNullTag : String := "tag:yaml.org,2002:null"
def yamlSeqTag : String := "tag:yaml.org,2002:seq"

/- TAG_PREFIX "tag:nuxi.nl,2015:cloudabi/" of cloudabi-run.c. -/
def nuxiTag (s : String) : String := "tag:nuxi.nl,2015:cloudabi/" ++ s

/- The argdata value tree.  `map` values are `Option` because the C builder
   stores the result of `parse_object` for the value position verbatim, and
   that result is NULL when the collection-end sentinel arrives in value
   position (parse_map lines 195-211 perform no check). -/

inductive Argdata where
  | null
  | bool (b : Bool)
  | int (i : Int)
  | str (s : String)
  | fd (n : Nat)
  | map (entries : List (Argdata × Option Argdata))
  | seq (entries : List Argdata)
  | buffer (bytes : List Nat)

/- Fatal error exits of the C code (`exit_parse_error`, `exit(127)` paths),
   carrying the values the diagnostic names. -/

inductive Err where
  | parserError
  | outOfFuel
  | undefinedBehavior
  | unknownBool (value : String)
  | invalidFdNumber
  | fdMissing (fd : Nat)
  | invalidInt
  | badAttribute (e : Nat)
  | badPathAttr (e : Nat)
  | unknownFileAttr (key : String)
  | missingPath
  | openFailed (path : String)
  | badTypeAttr (e : Nat)
  | badBindAttr (e : Nat)
  | unknownSocketAttr (key : String)
  | unsupportedTypeAttr (t : String)
  | missingBind
  | pathTooLong (bind : String)
  | noPortNumber (bind : String)
  | resolveFailed (bind : String) (gaiErr : Nat)
  | multipleAddresses (bind : String)
  | socketFailed (bind : String)
  | bindFailed (bind : String)
  | listenFailed (bind : String)
  | unsupportedMappingTag (tag : Option String)
  | unsupportedScalarTag (tag : Option String)
  | unsupportedSequenceTag (tag : Option String)
  | unsupportedEvent
deriving DecidableEq, Repr

/- OS oracle: the outcome of every system interaction the launcher performs.
   `getaddrinfo` returns the address families of the results as a nonempty
   list (head and tail); failure is the gai error code. -/

structure Sys where
  fstatOk : Nat → Bool
  openRead : String → Option Nat
  getaddrinfo : String → String → Nat → Except Nat (Nat × List Nat)
  socket : Nat → Nat → Option Nat
  bindErr : Nat → Option Nat
  listenErr : Nat → Option Nat
  openExec : String → Option Nat
  mallocOk : Bool
  fdInsertOk : Nat → Nat → Bool
  progExec : Nat → Option Nat
  emulateReturns : Bool

def sysDefault : Sys where
  fstatOk := fun _ => true
  openRead := fun _ => none
  getaddrinfo := fun _ _ _ => .error 0
  socket := fun _ _ => none
  bindErr := fun _ => none
  listenErr := fun _ => none
  openExec := fun _ => none
  mallocOk := true
  fdInsertOk := fun _ _ => true
  progExec := fun _ => some 1
  emulateReturns := true

/- parse_bool (cloudabi-run.c lines 77-88): strcmp against "true"/"false". -/

def parse_bool (value : String) : Except Err Argdata :=
  if value = "true" then .ok (.bool true)
  else if value = "false" then .ok (.bool false)
  else .error (.unknownBool value)

/- strtoimax / strtoumax / strtoul semantics (glibc, LP64): skip leading
   whitespace, optional sign, optional 0x/0X prefix when base is 16, then the
   longest run of digits of the base; conversion failure leaves endptr at the
   start. -/

def isSpaceChar (c : Char) : Bool :=
  decide (c.toNat = 32 ∨ (9 ≤ c.toNat ∧ c.toNat ≤ 13))

def dropSpaces : List Char → List Char
  | [] => []
  | c :: cs => if isSpaceChar c then dropSpaces cs else c :: cs

def digitVal (base : Nat) (c : Char) : Option Nat :=
  if 48 ≤ c.toNat ∧ c.toNat ≤ 57 then
    (if c.toNat - 48 < base then some (c.toNat - 48) else none)
  else if 97 ≤ c.toNat ∧ c.toNat ≤ 122 then
    (if c.toNat - 87 < base then some (c.toNat - 87) else none)
  else if 65 ≤ c.toNat ∧ c.toNat ≤ 90 then
    (if c.toNat - 55 < base then some (c.toNat - 55) else none)
  else none

def takeSign : List Char → Bool × List Char
  | [] => (false, [])
  | c :: cs => if c = '-' then (true, cs) else if c = '+' then (false, cs) else (false, c :: cs)

def stripHex (base : Nat) (cs : List Char) : List Char :=
  if base = 16 then
    match cs with
    | c0 :: c1 :: c2 :: rest =>
      if c0 = '0' ∧ (c1 = 'x' ∨ c1 = 'X') ∧ (digitVal 16 c2).isSome then c2 :: rest else cs
    | _ => cs
  else cs

def takeDigits (base : Nat) : List Char → Nat → Nat → Nat × Nat × List Char
  | [], cnt, acc => (cnt, acc, [])
  | c :: cs, cnt, acc =>
    match digitVal base c with
    | some v => takeDigits base cs (cnt + 1) (acc * base + v)
    | none => (cnt, acc, c :: cs)

/- Subject-sequence recognition shared by the strto* functions: returns the
   sign, the magnitude, and the unconsumed remainder, or `none` when no digit
   was converted (then endptr = nptr). -/
def strtoParse (base : Nat) (cs : List Char) : Option (Bool × Nat × List Char) :=
  match takeDigits base (stripHex base (takeSign (dropSpaces cs)).2) 0 0 with
  | (0, _, _) => none
  | (_ + 1, acc, rest) => some ((takeSign (dropSpaces cs)).1, acc, rest)

/- `some v` models: errno = 0 after the call and endptr = value_end (the whole
   token was consumed), value v.  On no-digits glibc leaves errno alone and
   endptr = nptr, so the call "succeeds" with 0 exactly when the token is
   empty. -/
def strtoimax (cs : List Char) (base : Nat) : Option Int :=
  match strtoParse base cs with
  | none => if cs = [] then some 0 else none
  | some (neg, mag, rest) =>
    if rest = [] then
      let v : Int := if neg then -(mag : Int) else (mag : Int)
      if INTMAX_MIN ≤ v ∧ v ≤ INTMAX_MAX then some v else none
    else none

def strtoumax (cs : List Char) (base : Nat) : Option Nat :=
  match strtoParse base cs with
  | none => if cs = [] then some 0 else none
  | some (neg, mag, rest) =>
    if rest = [] then
      if mag ≤ UINTMAX_MAX then
        some (if neg then (2 ^ 64 - mag) % 2 ^ 64 else mag)
      else none
    else none

/- unsigned long = uintmax_t on LP64. -/
def strtoul10 (cs : List Char) : Option Nat := strtoumax cs 10

/- Base selection of parse_int (cloudabi-run.c lines 158-168): a literal "0o"
   or "0x" prefix in the first two bytes. -/
def intBase (cs : List Char) : List Char × Nat :=
  match cs with
  | c0 :: c1 :: rest =>
    if c0 = '0' ∧ c1 = 'o' then (rest, 8)
    else if c0 = '0' ∧ c1 = 'x' then (rest, 16)
    else (cs, 10)
  | _ => (cs, 10)

/- parse_int (cloudabi-run.c lines 154-192). -/
def parse_int (cs : List Char) : Except Err Argdata :=
  match strtoimax (intBase cs).1 (intBase cs).2 with
  | some i => .ok (.int i)
  | none =>
    match strtoumax (intBase cs).1 (intBase cs).2 with
    | some u => .ok (.int (u : Int))
    | none => .error .invalidInt

/- parse_fd, numeric part (cloudabi-run.c lines 93-106).  Note that both
   "stdout" and "stderr" yield STDOUT_FILENO. -/
def parse_fd_num (value : List Char) : Except Err Nat :=
  if value = "stdout".data then .ok STDOUT_FILENO
  else if value = "stderr".data then .ok STDOUT_FILENO
  else
    match strtoul10 value with
    | none => .error .invalidFdNumber
    | some fd => if fd > INT_MAX then .error .invalidFdNumber else .ok fd

/- parse_fd (cloudabi-run.c lines 91-116): number, then fstat existence
   probe. -/
def parse_fd (sys : Sys) (value : List Char) : Except Err Argdata :=
  match parse_fd_num value with
  | .error e => .error e
  | .ok fd => if sys.fstatOk fd then .ok (.fd fd) else .error (.fdMissing fd)

/- Modelled from the spec: `argdata_get_str_c` of libcloudabi is not among the
   sources; per the spec an attribute key or value "must decode as a string".
   Returns the string when the node is a `Str`, an error (EINVAL) otherwise. -/
def argdata_get_str_c : Argdata → Except Nat String
  | .str s => .ok s
  | _ => .error EINVAL

/- Mathematical base-b value of a digit string, for relating the parsers to
   arithmetic. -/
def digitsVal (base : Nat) (ds : List Char) : Nat :=
  ds.foldl (fun a c => a * base + ((digitVal base c).getD 0)) 0

/- strchr(bindstr, ':'): index of the first colon. -/
def findColon : List Char → Option Nat
  | [] => none
  | c :: cs => if c = ':' then some 0 else (findColon cs).map (· + 1)

/- strstr(bindstr, "]:"): index of the first occurrence of "]:". -/
def findBracketColon : List Char → Option Nat
  | [] => none
  | c1 :: rest =>
    match rest with
    | [] => none
    | c2 :: _ => if c1 = ']' ∧ c2 = ':' then some 0 else (findBracketColon rest).map (· + 1)

/- Host/port split of parse_socket (cloudabi-run.c lines 294-308): the
   bracketed form splits at "]:" (the strndup keeps the leading bracket), the
   unbracketed form at the first colon; no split position is a fatal error. -/
def splitHostPort (b : String) : Option (String × String) :=
  let cs := b.data
  if cs.headD '\x00' = '[' then
    match findBracketColon cs with
    | none => none
    | some i => some (String.mk (cs.take i), String.mk (cs.drop (i + 2)))
  else
    match findColon cs with
    | none => none
    | some i => some (String.mk (cs.take i), String.mk (cs.drop (i + 1)))

/- socket-type attribute dispatch (cloudabi-run.c lines 267-276). -/
def socket_type (typestr : String) : Option Nat :=
  if typestr = "dgram" then some SOCK_DGRAM
  else if typestr = "seqpacket" then some SOCK_SEQPACKET
  else if typestr = "stream" then some SOCK_STREAM
  else none

/- Bind-address resolution of parse_socket (cloudabi-run.c lines 281-319):
   a leading '/' selects a UNIX-domain path (bounded by sizeof sun_path),
   anything else is host:port resolved by getaddrinfo restricted to the
   socket type; exactly one result is required.  Returns the address
   family used for socket(). -/
def resolve_bindaddr (sys : Sys) (type : Nat) (b : String) : Except Err Nat :=
  if b.data.headD '\x00' = '/' then
    if UNIX_PATH_MAX ≤ b.data.length then .error (.pathTooLong b) else .ok AF_UNIX
  else
    match splitHostPort b with
    | none => .error (.noPortNumber b)
    | some (host, serv) =>
      match sys.getaddrinfo host serv type with
      | .error g => .error (.resolveFailed b g)
      | .ok (fam, rest) =>
        if rest = [] then .ok fam else .error (.multipleAddresses b)

/- Post-attribute-loop part of parse_socket (cloudabi-run.c lines 267-339):
   type dispatch, bind resolution, socket/bind/listen, tolerating EOPNOTSUPP
   from listen. -/
def parse_socket_post (sys : Sys) (typestr : String) (bindstr : Option String) :
    Except Err Argdata :=
  match socket_type typestr with
  | none => .error (.unsupportedTypeAttr typestr)
  | some type =>
    match bindstr with
    | none => .error .missingBind
    | some b =>
      match resolve_bindaddr sys type b with
      | .error e => .error e
      | .ok fam =>
        match sys.socket fam type with
        | none => .error (.socketFailed b)
        | some fd =>
          match sys.bindErr fd with
          | some _ => .error (.bindFailed b)
          | none =>
            match sys.listenErr fd with
            | some e => if e = EOPNOTSUPP then .ok (.fd fd) else .error (.listenFailed b)
            | none => .ok (.fd fd)

/- get_event (cloudabi-run.c lines 52-61): skips DOCUMENT_END and STREAM_END;
   a tokenizer failure (exhausted stream) is fatal. -/
def get_event : List Event → Option (Event × List Event)
  | [] => none
  | e :: rest =>
    match e with
    | .documentEnd => get_event rest
    | .streamEnd => get_event rest
    | _ => some (e, rest)

/- The recursive-descent tree builder (cloudabi-run.c lines 119-393), over an
   event list with a fuel bound (the C code recurses unboundedly; every claim
   is stated at sufficient fuel).  `parse_object` returns `none` for the
   collection-end sentinel (the C NULL return). -/

mutual

def parse_object (sys : Sys) : Nat → List Event → Except Err (Option Argdata × List Event)
  | 0, _ => .error .outOfFuel
  | Nat.succ f, evs =>
    match get_event evs with
    | none => .error .parserError
    | some (ev, rest) =>
      match ev with
      | .streamStart => parse_object sys f rest
      | .documentStart => parse_object sys f rest
      | .documentEnd => .error .unsupportedEvent
      | .streamEnd => .error .unsupportedEvent
      | .noEvent => .error .unsupportedEvent
      | .mappingStart tag =>
        if tag = none ∨ tag = some yamlMapTag then parse_map sys f rest []
        else if tag = some (nuxiTag "file") then parse_file sys f rest none
        else if tag = some (nuxiTag "socket") then parse_socket sys f rest "stream" none
        else .error (.unsupportedMappingTag tag)
      | .scalar tag v =>
        if tag = none ∨ tag = some yamlStrTag then .ok (some (.str v), rest)
        else if tag = some yamlBoolTag then (parse_bool v).map (fun a => (some a, rest))
        else if tag = some yamlIntTag then (parse_int v.data).map (fun a => (some a, rest))
        else if tag = some yamlNullTag then .ok (some .null, rest)
        else if tag = some (nuxiTag "fd") then (parse_fd sys v.data).map (fun a => (some a, rest))
        else .error (.unsupportedScalarTag tag)
      | .sequenceStart tag =>
        if tag = none ∨ tag = some yamlSeqTag then parse_seq sys f rest []
        else .error (.unsupportedSequenceTag tag)
      | .mappingEnd => .ok (none, rest)
      | .sequenceEnd => .ok (none, rest)

/- parse_map (lines 195-211): keys are stored as parsed, with no check that
   they decode as strings. -/
def parse_map (sys : Sys) : Nat → List Event → List (Argdata × Option Argdata) →
    Except Err (Option Argdata × List Event)
  | 0, _, _ => .error .outOfFuel
  | Nat.succ f, evs, acc =>
    match parse_object sys f evs with
    | .error e => .error e
    | .ok (none, rest) => .ok (some (.map acc), rest)
    | .ok (some k, rest) =>
      match parse_object sys f rest with
      | .error e => .error e
      | .ok (v, rest2) => parse_map sys f rest2 (acc ++ [(k, v)])

/- parse_seq (lines 220-234). -/
def parse_seq (sys : Sys) : Nat → List Event → List Argdata →
    Except Err (Option Argdata × List Event)
  | 0, _, _ => .error .outOfFuel
  | Nat.succ f, evs, acc =>
    match parse_object sys f evs with
    | .error e => .error e
    | .ok (none, rest) => .ok (some (.seq acc), rest)
    | .ok (some a, rest) => parse_seq sys f rest (acc ++ [a])

/- parse_file (lines 119-151): attribute loop, then open(path, O_RDONLY).
   A collection end arriving in value position makes the C code pass NULL to
   argdata_get_str_c, modelled as undefined behavior. -/
def parse_file (sys : Sys) : Nat → List Event → Option String →
    Except Err (Option Argdata × List Event)
  | 0, _, _ => .error .outOfFuel
  | Nat.succ f, evs, path =>
    match parse_object sys f evs with
    | .error e => .error e
    | .ok (none, rest) =>
      match path with
      | none => .error .missingPath
      | some p =>
        match sys.openRead p with
        | none => .error (.openFailed p)
        | some fd => .ok (some (.fd fd), rest)
    | .ok (some key, rest) =>
      match argdata_get_str_c key with
      | .error e => .error (.badAttribute e)
      | .ok keystr =>
        match parse_object sys f rest with
        | .error e => .error e
        | .ok (v, rest2) =>
          if keystr = "path" then
            match v with
            | none => .error .undefinedBehavior
            | some vv =>
              match argdata_get_str_c vv with
              | .error e => .error (.badPathAttr e)
              | .ok p => parse_file sys f rest2 (some p)
          else .error (.unknownFileAttr keystr)

/- parse_socket attribute loop (lines 238-265), entered with typestr "stream"
   and no bind string. -/
def parse_socket (sys : Sys) : Nat → List Event → String → Option String →
    Except Err (Option Argdata × List Event)
  | 0, _, _, _ => .error .outOfFuel
  | Nat.succ f, evs, typestr, bindstr =>
    match parse_object sys f evs with
    | .error e => .error e
    | .ok (none, rest) => (parse_socket_post sys typestr bindstr).map (fun a => (some a, rest))
    | .ok (some key, rest) =>
      match argdata_get_str_c key with
      | .error e => .error (.badAttribute e)
      | .ok keystr =>
        match parse_object sys f rest with
        | .error e => .error e
        | .ok (v, rest2) =>
          if keystr = "type" then
            match v with
            | none => .error .undefinedBehavior
            | some vv =>
              match argdata_get_str_c vv with
              | .error e => .error (.badTypeAttr e)
              | .ok t => parse_socket sys f rest2 t bindstr
          else if keystr = "bind" then
            match v with
            | none => .error .undefinedBehavior
            | some vv =>
              match argdata_get_str_c vv with
              | .error e => .error (.badBindAttr e)
              | .ok bs => parse_socket sys f rest2 typestr (some bs)
          else .error (.unknownSocketAttr keystr)

end

/- Modelled from the spec: the Binary Codec (argdata_get_buffer_length /
   argdata_get_buffer of libcloudabi) is not among the sources; per the spec
   it collects "every Fd node's descriptor into one ordered array in a single
   consistent traversal order".  Only that descriptor array matters to the
   dispatcher's control flow. -/

mutual

def argdata_fds : Argdata → List Nat
  | .null => []
  | .bool _ => []
  | .int _ => []
  | .str _ => []
  | .buffer _ => []
  | .fd n => [n]
  | .map es => fds_of_pairs es
  | .seq es => fds_of_list es

def fds_of_pairs : List (Argdata × Option Argdata) → List Nat
  | [] => []
  | (k, v) :: rest => argdata_fds k ++ fds_of_opt v ++ fds_of_pairs rest

def fds_of_opt : Option Argdata → List Nat
  | none => []
  | some a => argdata_fds a

def fds_of_list : List Argdata → List Nat
  | [] => []
  | a :: rest => argdata_fds a ++ fds_of_list rest

end

/- fd_table_insert_existing loop of main (cloudabi-run.c lines 441-446):
   slots are the array indices; the first failing insertion is fatal. -/
def insert_fds (sys : Sys) : Nat → List Nat → Bool
  | _, [] => true
  | i, fd :: rest => sys.fdInsertOk i fd && insert_fds sys (i + 1) rest

/- POSIX getopt(argc, argv, "e") over the arguments after the program name:
   option clusters are scanned left to right, "--" ends option processing, a
   character other than 'e' is the usage error. -/

def optChars (emu : Bool) : List Char → Option Bool
  | [] => some emu
  | c :: cs => if c = 'e' then optChars true cs else none

def getopt_go (emu : Bool) : List String → Except Unit (Bool × List String)
  | [] => .ok (emu, [])
  | a :: rest =>
    if a = "--" then .ok (emu, rest)
    else
      match a.data with
      | '-' :: c :: cs =>
        match optChars emu (c :: cs) with
        | none => .error ()
        | some emu2 => getopt_go emu2 rest
      | _ => .ok (emu, a :: rest)

def getopt_e (args : List String) : Except Unit (Bool × List String) :=
  getopt_go false args

/- Process outcome of main: control transferred to the target and never
   returned, or process termination with an exit status (tracking whether the
   usage line was printed on the way out). -/
inductive Outcome where
  | launched
  | exit (code : Nat) (usagePrinted : Bool)
deriving DecidableEq, Repr

/- Execution dispatch of main (cloudabi-run.c lines 426-474): the emulated
   branch encodes, registers descriptors, opens the target read-only and
   enters the emulator; the direct branch opens for execute and calls
   program_exec.  Either backend returning is a failure. -/
def run_dispatch (sys : Sys) (emu : Bool) (exe : String) (ad : Argdata) : Outcome :=
  if emu then
    if sys.mallocOk = false then .exit 127 false
    else if insert_fds sys 0 (argdata_fds ad) = false then .exit 127 false
    else
      match sys.openRead exe with
      | none => .exit 127 false
      | some _ => if sys.emulateReturns then .exit 127 false else .launched
  else
    match sys.openExec exe with
    | none => .exit 127 false
    | some fd =>
      match sys.progExec fd with
      | none => .launched
      | some _ => .exit 127 false

/- main (cloudabi-run.c lines 400-475).  A NULL root object (collection-end
   sentinel at top level, impossible from a real tokenizer) would be
   dereferenced by the dispatch path in C; modelled as a failure exit. -/
def cloudabi_run_main (sys : Sys) (fuel : Nat) (args : List String)
    (events : List Event) : Outcome :=
  match getopt_e args with
  | .error _ => .exit 127 true
  | .ok (emu, pos) =>
    if pos.length = 1 then
      match parse_object sys fuel events with
      | .error _ => .exit 127 false
      | .ok (none, _) => .exit 127 false
      | .ok (some ad, _) => run_dispatch sys emu (pos.headD "") ad
    else .exit 127 true

/- An invocation that takes the usage() path (cloudabi-run.c lines 395-398,
   404-417): an unknown option or other than exactly one positional. -/
def usage_invocation (args : List String) : Bool :=
  match getopt_e args with
  | .error _ => true
  | .ok (_, pos) => if pos.length = 1 then false else true

/- The sequence iterator of the binary codec
   (struct cloudabi_argdata_seq_iterator; argdata_seq_next.c). -/
structure SeqIterator where
  container : Argdata
  offset : Nat
  error : Nat
  value : Argdata

/- argdata_seq_next (argdata_seq_next.c lines 13-37), parameterized by the
   sub-value decoder.  Modelled from the spec: `parse_subfield` of libcloudabi
   is not among the sources; per the spec it parses exactly one sub-value at
   the current offset and advances past it, so it is abstracted as a function
   from the remaining bytes to either a nonzero error or the parsed value and
   the number of bytes consumed.  In the buffer branch `len` is
   `ad->length - it->offset`, which is zero exactly at exhaustion. -/
def argdata_seq_next (psf : List Nat → Except Nat (Argdata × Nat))
    (it : SeqIterator) : Option Argdata × SeqIterator :=
  match it.container with
  | .buffer bytes =>
    if bytes.length - it.offset = 0 then (none, it)
    else
      match psf (bytes.drop it.offset) with
      | .error e => (none, { it with error := e })
      | .ok (v, consumed) =>
        (some v, { it with offset := it.offset + consumed, value := v })
  | .seq entries =>
    if entries.length ≤ it.offset then (none, it)
    else (entries[it.offset]?, { it with offset := it.offset + 1 })
  | _ => (none, it)

/- Claim theorems. -/

/-- C1 (counterexample): the claim says a generic-mapping key that does not
decode as a string raises a fatal type error; on the event stream for the
mapping with the single int-tagged key `5`, the builder instead returns a
generic `Map` whose key is an `Int` node, a node `argdata_get_str_c`
rejects. -/
theorem c1_generic_map_key_counterexample :
    parse_object sysDefault 4
      [.mappingStart none, .scalar (some yamlIntTag) "5", .scalar none "x", .mappingEnd]
      = .ok (some (.map [(.int 5, some (.str "x"))]), [])
    ∧ argdata_get_str_c (.int 5) = .error EINVAL := ⟨rfl, rfl⟩

/-- C1 (amended): while building a generic (untagged) mapping the tree builder
performs no string check on keys: a parsed key is stored as-is, and a generic
`Map` is returned even when a key does not decode as a string (the string
requirement applies only to the file/socket attribute bags).  Shown on the
one-entry mapping with an int-tagged key, for every OS oracle and every value
token. -/
theorem c1_generic_map_key_amended (sys : Sys) (v : String) :
    parse_object sys 4
      [.mappingStart none, .scalar (some yamlIntTag) "5", .scalar none v, .mappingEnd]
      = .ok (some (.map [(.int 5, some (.str v))]), []) := rfl

/-- C2: on a `Buffer`-backed sequence iterator, a pull with the remaining byte
range empty returns "no more elements" (`none`) with the iterator unchanged
(no error recorded), while a pull whose sub-value decode fails records the
decoder's error on the iterator and also returns "no more elements"; the error
field after a `none` result therefore distinguishes clean exhaustion from
decode failure. -/
theorem c2_buffer_exhaustion_vs_error
    (psf : List Nat → Except Nat (Argdata × Nat)) (bytes : List Nat)
    (off err0 : Nat) :
    (bytes.length ≤ off →
      argdata_seq_next psf ⟨.buffer bytes, off, err0, .null⟩
        = (none, ⟨.buffer bytes, off, err0, .null⟩))
    ∧ (∀ e, off < bytes.length → psf (bytes.drop off) = .error e →
      argdata_seq_next psf ⟨.buffer bytes, off, err0, .null⟩
        = (none, ⟨.buffer bytes, off, e, .null⟩)) := by
  constructor
  · intro h
    unfold argdata_seq_next
    simp only
    rw [if_pos (by omega)]
  · intro e hlt hpsf
    unfold argdata_seq_next
    simp only
    rw [if_neg (by omega), hpsf]

/-- C2 (witness): with a decoder that always fails with error 22, a pull at
offset 0 of a one-byte buffer records error 22, and a pull at offset 1
(exhausted) leaves the error field at 0. -/
theorem c2_buffer_exhaustion_vs_error_witness :
    argdata_seq_next (fun _ => .error 22) ⟨.buffer [7], 0, 0, .null⟩
      = (none, ⟨.buffer [7], 0, 22, .null⟩)
    ∧ argdata_seq_next (fun _ => .error 22) ⟨.buffer [7], 1, 0, .null⟩
      = (none, ⟨.buffer [7], 1, 0, .null⟩) :=
  ⟨(c2_buffer_exhaustion_vs_error (fun _ => .error 22) [7] 0 0).2 22 (by decide) rfl,
   (c2_buffer_exhaustion_vs_error (fun _ => .error 22) [7] 1 0).1 (by decide)⟩

/-- C3: the existing-descriptor symbolic tokens "stdout" and "stderr" both
resolve to an `Fd` node embedding STDOUT_FILENO (descriptor 1), whenever that
descriptor is open in the launching process. -/
theorem c3_stdout_stderr_same_fd (sys : Sys) (h : sys.fstatOk STDOUT_FILENO = true) :
    parse_fd sys "stdout".data = .ok (.fd STDOUT_FILENO)
    ∧ parse_fd sys "stderr".data = .ok (.fd STDOUT_FILENO) := by
  constructor <;> · unfold parse_fd parse_fd_num; simp [h]

/-- C3 (witness): concrete oracle with descriptor 1 open. -/
theorem c3_stdout_stderr_same_fd_witness :
    parse_fd sysDefault "stdout".data = .ok (.fd STDOUT_FILENO)
    ∧ parse_fd sysDefault "stderr".data = .ok (.fd STDOUT_FILENO) :=
  c3_stdout_stderr_same_fd sysDefault rfl

/-- C6: whenever the numeric part of an existing-descriptor token resolves to
a number n, resolution succeeds with an `Fd` node embedding exactly n if the
fstat existence probe finds n open, and fails with the error naming n (and no
`Fd` node) if the probe fails. -/
theorem c6_existing_fd_probe (sys : Sys) (v : List Char) (n : Nat)
    (h : parse_fd_num v = .ok n) :
    (sys.fstatOk n = true → parse_fd sys v = .ok (.fd n))
    ∧ (sys.fstatOk n = false → parse_fd sys v = .error (.fdMissing n)) := by
  unfold parse_fd
  rw [h]
  constructor <;> (intro hp; simp [hp])

/-- C6 (witness): token "3" with descriptor 3 open resolves to Fd 3; with
every descriptor closed it fails naming descriptor 3. -/
theorem c6_existing_fd_probe_witness :
    parse_fd sysDefault "3".data = .ok (.fd 3)
    ∧ parse_fd { sysDefault with fstatOk := fun _ => false } "3".data
        = .error (.fdMissing 3) :=
  ⟨(c6_existing_fd_probe sysDefault "3".data 3 rfl).1 rfl,
   (c6_existing_fd_probe { sysDefault with fstatOk := fun _ => false } "3".data 3 rfl).2 rfl⟩

/-- C7: under the bool tag, decoding succeeds exactly on the tokens "true" and
"false", yielding the true and false Bool nodes; every other token is the
fatal "Unknown boolean value" error. -/
theorem c7_bool_exact_tokens (v : String) :
    (parse_bool v = .ok (.bool true) ↔ v = "true")
    ∧ (parse_bool v = .ok (.bool false) ↔ v = "false")
    ∧ ((∃ a, parse_bool v = .ok a) ↔ (v = "true" ∨ v = "false"))
    ∧ (v ≠ "true" → v ≠ "false" → parse_bool v = .error (.unknownBool v)) := by
  unfold parse_bool
  by_cases h1 : v = "true" <;> by_cases h2 : v = "false" <;> simp_all

/-- C7 (witness): the token "maybe" under the bool tag is the fatal error. -/
theorem c7_bool_exact_tokens_witness :
    parse_bool "maybe" = .error (.unknownBool "maybe") :=
  (c7_bool_exact_tokens "maybe").2.2.2 (by decide) (by decide)

/-- C10: on a `Buffer`-backed iterator whose offset is within the buffer, and
for any sub-value decoder that consumes no more bytes than remain, a pull
never decreases the offset and never moves it beyond the buffer length; a
successful pull advances the offset exactly past the consumed sub-value, and
a failed pull (exhaustion or decode error) leaves the offset, the container
and the scratch value unchanged, the error field being the only possible
mutation. -/
theorem c10_buffer_offset_invariant
    (psf : List Nat → Except Nat (Argdata × Nat)) (bytes : List Nat)
    (off err0 : Nat) (val : Argdata)
    (hoff : off ≤ bytes.length)
    (hpsf : ∀ l v n, psf l = .ok (v, n) → n ≤ l.length) :
    off ≤ (argdata_seq_next psf ⟨.buffer bytes, off, err0, val⟩).2.offset
    ∧ (argdata_seq_next psf ⟨.buffer bytes, off, err0, val⟩).2.offset ≤ bytes.length
    ∧ ((argdata_seq_next psf ⟨.buffer bytes, off, err0, val⟩).1 = none →
        (argdata_seq_next psf ⟨.buffer bytes, off, err0, val⟩).2.offset = off
        ∧ (argdata_seq_next psf ⟨.buffer bytes, off, err0, val⟩).2.container = .buffer bytes
        ∧ (argdata_seq_next psf ⟨.buffer bytes, off, err0, val⟩).2.value = val)
    ∧ (∀ v, (argdata_seq_next psf ⟨.buffer bytes, off, err0, val⟩).1 = some v →
        ∃ n, psf (bytes.drop off) = .ok (v, n)
          ∧ (argdata_seq_next psf ⟨.buffer bytes, off, err0, val⟩).2.offset = off + n) := by
  unfold argdata_seq_next
  simp only
  by_cases hend : bytes.length - off = 0
  · rw [if_pos hend]
    refine ⟨le_refl _, hoff, fun _ => ⟨rfl, rfl, rfl⟩, fun v hv => by simp at hv⟩
  · rw [if_neg hend]
    cases hpsf2 : psf (bytes.drop off) with
    | error e =>
      refine ⟨le_refl _, hoff, fun _ => ⟨rfl, rfl, rfl⟩, fun v hv => by simp at hv⟩
    | ok p =>
      obtain ⟨v0, n0⟩ := p
      have hn : n0 ≤ (bytes.drop off).length := hpsf _ _ _ hpsf2
      simp only [List.length_drop] at hn
      dsimp only
      refine ⟨by omega, by omega, fun hc => by simp at hc, ?_⟩
      intro v hv
      simp only [Option.some.injEq] at hv
      exact ⟨n0, by rw [hv], rfl⟩

/-- C10 (witness): a decoder consuming one byte at a time, on a one-byte
buffer at offset 0: the pull succeeds and advances the offset to 1. -/
theorem c10_buffer_offset_invariant_witness :
    0 ≤ (argdata_seq_next (fun l => match l with | [] => .error 22 | b :: _ => .ok (.int b, 1)) ⟨.buffer [3], 0, 0, .null⟩).2.offset
    ∧ (argdata_seq_next (fun l => match l with | [] => .error 22 | b :: _ => .ok (.int b, 1)) ⟨.buffer [3], 0, 0, .null⟩).2.offset ≤ [3].length
    ∧ ((argdata_seq_next (fun l => match l with | [] => .error 22 | b :: _ => .ok (.int b, 1)) ⟨.buffer [3], 0, 0, .null⟩).1 = none →
        (argdata_seq_next (fun l => match l with | [] => .error 22 | b :: _ => .ok (.int b, 1)) ⟨.buffer [3], 0, 0, .null⟩).2.offset = 0
        ∧ (argdata_seq_next (fun l => match l with | [] => .error 22 | b :: _ => .ok (.int b, 1)) ⟨.buffer [3], 0, 0, .null⟩).2.container = .buffer [3]
        ∧ (argdata_seq_next (fun l => match l with | [] => .error 22 | b :: _ => .ok (.int b, 1)) ⟨.buffer [3], 0, 0, .null⟩).2.value = .null)
    ∧ (∀ v, (argdata_seq_next (fun l => match l with | [] => .error 22 | b :: _ => .ok (.int b, 1)) ⟨.buffer [3], 0, 0, .null⟩).1 = some v →
        ∃ n, (fun (l : List Nat) => match l with | [] => Except.error 22 | b :: _ => Except.ok ((Argdata.int b), 1)) ([3].drop 0) = .ok (v, n)
          ∧ (argdata_seq_next (fun l => match l with | [] => .error 22 | b :: _ => .ok (.int b, 1)) ⟨.buffer [3], 0, 0, .null⟩).2.offset = 0 + n) :=
  c10_buffer_offset_invariant
    (fun l => match l with | [] => .error 22 | b :: _ => .ok (.int b, 1))
    [3] 0 0 .null (by decide)
    (by intro l v n h; cases l with
        | nil => simp at h
        | cons b t => simp only [Except.ok.injEq, Prod.mk.injEq] at h; simp [← h.2])

/-- C5: for a non-path bind string that splits into host and service parts,
the host is resolved by getaddrinfo restricted to the chosen socket type, and
exactly one result is required: a resolution failure (zero results) and a
resolution with two or more results are both fatal errors naming the bind
string, while exactly one result is accepted. -/
theorem c5_socket_bind_resolution (sys : Sys) (t : Nat) (b host serv : String)
    (hnp : b.data.headD '\x00' ≠ '/')
    (hs : splitHostPort b = some (host, serv)) :
    (∀ g, sys.getaddrinfo host serv t = .error g →
      resolve_bindaddr sys t b = .error (.resolveFailed b g))
    ∧ (∀ fam fam2 fams, sys.getaddrinfo host serv t = .ok (fam, fam2 :: fams) →
      resolve_bindaddr sys t b = .error (.multipleAddresses b))
    ∧ (∀ fam, sys.getaddrinfo host serv t = .ok (fam, []) →
      resolve_bindaddr sys t b = .ok fam) := by
  unfold resolve_bindaddr
  rw [if_neg hnp, hs]
  refine ⟨fun g hg => ?_, fun fam fam2 fams hg => ?_, fun fam hg => ?_⟩ <;> simp [hg]

/-- C5 (witness): bind string "localhost:80": with an oracle resolving it to
two addresses the result is the multiple-addresses error; failing resolution
is the resolve error; a single address is accepted. -/
theorem c5_socket_bind_resolution_witness :
    resolve_bindaddr { sysDefault with getaddrinfo := fun _ _ _ => .ok (2, [10]) } SOCK_STREAM "localhost:80"
      = .error (.multipleAddresses "localhost:80")
    ∧ resolve_bindaddr { sysDefault with getaddrinfo := fun _ _ _ => .error 8 } SOCK_STREAM "localhost:80"
      = .error (.resolveFailed "localhost:80" 8)
    ∧ resolve_bindaddr { sysDefault with getaddrinfo := fun _ _ _ => .ok (2, []) } SOCK_STREAM "localhost:80"
      = .ok 2 :=
  ⟨(c5_socket_bind_resolution { sysDefault with getaddrinfo := fun _ _ _ => .ok (2, [10]) }
      SOCK_STREAM "localhost:80" "localhost" "80" (by decide) rfl).2.1 2 10 [] rfl,
   (c5_socket_bind_resolution { sysDefault with getaddrinfo := fun _ _ _ => .error 8 }
      SOCK_STREAM "localhost:80" "localhost" "80" (by decide) rfl).1 8 rfl,
   (c5_socket_bind_resolution { sysDefault with getaddrinfo := fun _ _ _ => .ok (2, []) }
      SOCK_STREAM "localhost:80" "localhost" "80" (by decide) rfl).2.2 2 rfl⟩

/- Arithmetic characterization of the strto* model on pure digit strings,
   used to settle the integer-parsing claims. -/

lemma digitVal_bounds {base v : Nat} {c : Char} (h : digitVal base c = some v) :
    (48 ≤ c.toNat ∧ c.toNat ≤ 57 ∧ c.toNat - 48 < base)
    ∨ (97 ≤ c.toNat ∧ c.toNat ≤ 122 ∧ c.toNat - 87 < base)
    ∨ (65 ≤ c.toNat ∧ c.toNat ≤ 90 ∧ c.toNat - 55 < base) := by
  unfold digitVal at h
  split_ifs at h with h1 h2 h3 h4 h5 h6 <;> simp_all

lemma digitVal_head_facts {base v : Nat} {c : Char} (h : digitVal base c = some v) :
    isSpaceChar c = false ∧ c ≠ '-' ∧ c ≠ '+' := by
  have hb := digitVal_bounds h
  refine ⟨?_, ?_, ?_⟩
  · unfold isSpaceChar
    simp only [decide_eq_false_iff_not]
    omega
  · intro he
    subst he
    simp only [show ('-' : Char).toNat = 45 from by decide] at hb
    omega
  · intro he
    subst he
    simp only [show ('+' : Char).toNat = 43 from by decide] at hb
    omega

lemma digitVal_ne_x {base v : Nat} {c : Char} (hbase : base ≤ 33)
    (h : digitVal base c = some v) : c ≠ 'x' ∧ c ≠ 'X' := by
  have hb := digitVal_bounds h
  constructor <;> intro he <;> subst he <;>
    simp only [show ('x' : Char).toNat = 120 from by decide,
      show ('X' : Char).toNat = 88 from by decide] at hb <;> omega

lemma digitVal10_decimal {v : Nat} {c : Char} (h : digitVal 10 c = some v) :
    48 ≤ c.toNat ∧ c.toNat ≤ 57 := by
  have hb := digitVal_bounds h
  omega

lemma stripHex_digits (base : Nat) (cs : List Char) (hbase : base ≤ 33)
    (h : ∀ c ∈ cs, (digitVal base c).isSome) : stripHex base cs = cs := by
  by_cases hb : base = 16
  · subst hb
    match cs with
    | [] => rfl
    | [c0] => rfl
    | [c0, c1] => rfl
    | c0 :: c1 :: c2 :: rest =>
      obtain ⟨v, hv⟩ := Option.isSome_iff_exists.mp (h c1 (by simp))
      have hx := digitVal_ne_x (by omega) hv
      have hred : stripHex 16 (c0 :: c1 :: c2 :: rest)
          = if c0 = '0' ∧ (c1 = 'x' ∨ c1 = 'X') ∧ (digitVal 16 c2).isSome then c2 :: rest
            else c0 :: c1 :: c2 :: rest := rfl
      rw [hred, if_neg]
      rintro ⟨-, hor, -⟩
      rcases hor with h1 | h1
      · exact hx.1 h1
      · exact hx.2 h1
  · unfold stripHex
    rw [if_neg hb]

lemma takeDigits_all (base : Nat) (ds : List Char)
    (h : ∀ c ∈ ds, (digitVal base c).isSome) :
    ∀ cnt acc, takeDigits base ds cnt acc
      = (cnt + ds.length, ds.foldl (fun a c => a * base + (digitVal base c).getD 0) acc, []) := by
  induction ds with
  | nil => intro cnt acc; simp [takeDigits]
  | cons c cs ih =>
    intro cnt acc
    obtain ⟨v, hv⟩ := Option.isSome_iff_exists.mp (h c (by simp))
    simp only [takeDigits, hv]
    rw [ih (fun c hc => h c (by simp [hc])) (cnt + 1) (acc * base + v)]
    simp only [List.foldl_cons, List.length_cons, hv, Option.getD_some, Prod.mk.injEq]
    exact ⟨by omega, trivial⟩

lemma strtoParse_digits (base : Nat) (ds : List Char) (hbase : base ≤ 33)
    (h1 : ds ≠ []) (h2 : ∀ c ∈ ds, (digitVal base c).isSome) :
    strtoParse base ds = some (false, digitsVal base ds, []) := by
  obtain ⟨c, cs, rfl⟩ := List.exists_cons_of_ne_nil h1
  obtain ⟨v, hv⟩ := Option.isSome_iff_exists.mp (h2 c (by simp))
  have hf := digitVal_head_facts hv
  have hdrop : dropSpaces (c :: cs) = c :: cs := by simp [dropSpaces, hf.1]
  have hsign : takeSign (c :: cs) = (false, c :: cs) := by
    simp [takeSign, hf.2.1, hf.2.2]
  have hstrip := stripHex_digits base (c :: cs) hbase h2
  have htd := takeDigits_all base (c :: cs) h2 0 0
  unfold strtoParse
  simp only [hdrop, hsign, hstrip]
  rw [htd]
  simp [digitsVal]

lemma strtoParse_neg_digits (base : Nat) (ds : List Char) (hbase : base ≤ 33)
    (h1 : ds ≠ []) (h2 : ∀ c ∈ ds, (digitVal base c).isSome) :
    strtoParse base ('-' :: ds) = some (true, digitsVal base ds, []) := by
  have hdrop : dropSpaces ('-' :: ds) = '-' :: ds := by
    have hsp : isSpaceChar '-' = false := by decide
    simp [dropSpaces, hsp]
  have hsign : takeSign ('-' :: ds) = (true, ds) := by simp [takeSign]
  have hstrip := stripHex_digits base ds hbase h2
  have htd := takeDigits_all base ds h2 0 0
  obtain ⟨c, cs, rfl⟩ := List.exists_cons_of_ne_nil h1
  unfold strtoParse
  simp only [hdrop, hsign, hstrip]
  rw [htd]
  simp [digitsVal]

lemma strtoimax_digits (base : Nat) (ds : List Char) (hbase : base ≤ 33)
    (h1 : ds ≠ []) (h2 : ∀ c ∈ ds, (digitVal base c).isSome) :
    strtoimax ds base
      = if digitsVal base ds ≤ 2 ^ 63 - 1 then some ((digitsVal base ds : Int)) else none := by
  unfold strtoimax
  rw [strtoParse_digits base ds hbase h1 h2]
  show (if INTMAX_MIN ≤ ((digitsVal base ds : Nat) : Int) ∧ ((digitsVal base ds : Nat) : Int) ≤ INTMAX_MAX
        then some ((digitsVal base ds : Nat) : Int) else none)
      = if digitsVal base ds ≤ 2 ^ 63 - 1 then some ((digitsVal base ds : Int)) else none
  unfold INTMAX_MIN INTMAX_MAX
  by_cases hle : digitsVal base ds ≤ 2 ^ 63 - 1
  · rw [if_pos ⟨by omega, by omega⟩, if_pos hle]
  · rw [if_neg (by rintro ⟨-, ha⟩; revert ha; simp; omega), if_neg hle]

lemma strtoumax_digits (base : Nat) (ds : List Char) (hbase : base ≤ 33)
    (h1 : ds ≠ []) (h2 : ∀ c ∈ ds, (digitVal base c).isSome) :
    strtoumax ds base
      = if digitsVal base ds ≤ UINTMAX_MAX then some (digitsVal base ds) else none := by
  unfold strtoumax
  rw [strtoParse_digits base ds hbase h1 h2]
  rfl

lemma strtoimax_neg_digits (base : Nat) (ds : List Char) (hbase : base ≤ 33)
    (h1 : ds ≠ []) (h2 : ∀ c ∈ ds, (digitVal base c).isSome) :
    strtoimax ('-' :: ds) base
      = if digitsVal base ds ≤ 2 ^ 63 then some (-(digitsVal base ds : Int)) else none := by
  unfold strtoimax
  rw [strtoParse_neg_digits base ds hbase h1 h2]
  show (if INTMAX_MIN ≤ -((digitsVal base ds : Nat) : Int) ∧ -((digitsVal base ds : Nat) : Int) ≤ INTMAX_MAX
        then some (-((digitsVal base ds : Nat) : Int)) else none)
      = if digitsVal base ds ≤ 2 ^ 63 then some (-(digitsVal base ds : Int)) else none
  unfold INTMAX_MIN INTMAX_MAX
  by_cases hle : digitsVal base ds ≤ 2 ^ 63
  · rw [if_pos ⟨by omega, by omega⟩, if_pos hle]
  · rw [if_neg (by rintro ⟨ha, -⟩; revert ha; simp; omega), if_neg hle]

lemma strtoumax_neg_digits (base : Nat) (ds : List Char) (hbase : base ≤ 33)
    (h1 : ds ≠ []) (h2 : ∀ c ∈ ds, (digitVal base c).isSome) :
    strtoumax ('-' :: ds) base
      = if digitsVal base ds ≤ UINTMAX_MAX
        then some ((2 ^ 64 - digitsVal base ds) % 2 ^ 64) else none := by
  unfold strtoumax
  rw [strtoParse_neg_digits base ds hbase h1 h2]
  rfl

lemma intBase_digits (ds : List Char) (h2 : ∀ c ∈ ds, (digitVal 10 c).isSome) :
    intBase ds = (ds, 10) := by
  match ds with
  | [] => rfl
  | [c0] => rfl
  | c0 :: c1 :: rest =>
    obtain ⟨v, hv⟩ := Option.isSome_iff_exists.mp (h2 c1 (by simp))
    have hd := digitVal10_decimal hv
    have hred : intBase (c0 :: c1 :: rest)
        = if c0 = '0' ∧ c1 = 'o' then (rest, 8)
          else if c0 = '0' ∧ c1 = 'x' then (rest, 16)
          else (c0 :: c1 :: rest, 10) := rfl
    have hno : ¬(c0 = '0' ∧ c1 = 'o') := by
      rintro ⟨-, he⟩
      rw [he] at hd
      simp only [show ('o' : Char).toNat = 111 from by decide] at hd
      omega
    have hnx : ¬(c0 = '0' ∧ c1 = 'x') := by
      rintro ⟨-, he⟩
      rw [he] at hd
      simp only [show ('x' : Char).toNat = 120 from by decide] at hd
      omega
    rw [hred, if_neg hno, if_neg hnx]

lemma intBase_dash (ds : List Char) : intBase ('-' :: ds) = ('-' :: ds, 10) := by
  cases ds <;> simp [intBase]

/-- C4: int-tagged scalar decoding: a "0x" prefix selects base 16 and a "0o"
prefix base 8, otherwise base 10; the signed conversion is tried first and its
value returned when the whole token converts in signed range, otherwise the
unsigned conversion (with strtoumax's modular treatment of a minus sign), and
a token in neither range is the fatal "Invalid integer value" error.  Stated
for every nonempty digit string of the respective base, both unprefixed,
0x/0o-prefixed and negated. -/
theorem c4_int_parsing
    (d : List Char) (hd1 : d ≠ []) (hd2 : ∀ c ∈ d, (digitVal 10 c).isSome)
    (x : List Char) (hx1 : x ≠ []) (hx2 : ∀ c ∈ x, (digitVal 16 c).isSome)
    (o : List Char) (ho1 : o ≠ []) (ho2 : ∀ c ∈ o, (digitVal 8 c).isSome)
    (m : List Char) (hm1 : m ≠ []) (hm2 : ∀ c ∈ m, (digitVal 10 c).isSome) :
    parse_int d
      = (if digitsVal 10 d ≤ UINTMAX_MAX then .ok (.int ((digitsVal 10 d : Int)))
         else .error .invalidInt)
    ∧ parse_int ('0' :: 'x' :: x)
      = (if digitsVal 16 x ≤ UINTMAX_MAX then .ok (.int ((digitsVal 16 x : Int)))
         else .error .invalidInt)
    ∧ parse_int ('0' :: 'o' :: o)
      = (if digitsVal 8 o ≤ UINTMAX_MAX then .ok (.int ((digitsVal 8 o : Int)))
         else .error .invalidInt)
    ∧ parse_int ('-' :: m)
      = (if digitsVal 10 m ≤ 2 ^ 63 then .ok (.int (-(digitsVal 10 m : Int)))
         else if digitsVal 10 m ≤ UINTMAX_MAX
           then .ok (.int ((((2 ^ 64 - digitsVal 10 m) % 2 ^ 64 : Nat)) : Int))
           else .error .invalidInt) := by
  refine ⟨?_, ?_, ?_, ?_⟩
  · unfold parse_int
    simp only [intBase_digits d hd2]
    rw [strtoimax_digits 10 d (by omega) hd1 hd2, strtoumax_digits 10 d (by omega) hd1 hd2]
    by_cases hle : digitsVal 10 d ≤ 2 ^ 63 - 1
    · rw [if_pos hle, if_pos (by unfold UINTMAX_MAX; omega),
        if_pos (by unfold UINTMAX_MAX; omega)]
    · rw [if_neg hle]
      by_cases hu : digitsVal 10 d ≤ UINTMAX_MAX
      · rw [if_pos hu, if_pos hu]
      · rw [if_neg hu, if_neg hu]
  · unfold parse_int
    simp only [show intBase ('0' :: 'x' :: x) = (x, 16) from rfl]
    rw [strtoimax_digits 16 x (by omega) hx1 hx2, strtoumax_digits 16 x (by omega) hx1 hx2]
    by_cases hle : digitsVal 16 x ≤ 2 ^ 63 - 1
    · rw [if_pos hle, if_pos (by unfold UINTMAX_MAX; omega),
        if_pos (by unfold UINTMAX_MAX; omega)]
    · rw [if_neg hle]
      by_cases hu : digitsVal 16 x ≤ UINTMAX_MAX
      · rw [if_pos hu, if_pos hu]
      · rw [if_neg hu, if_neg hu]
  · unfold parse_int
    simp only [show intBase ('0' :: 'o' :: o) = (o, 8) from rfl]
    rw [strtoimax_digits 8 o (by omega) ho1 ho2, strtoumax_digits 8 o (by omega) ho1 ho2]
    by_cases hle : digitsVal 8 o ≤ 2 ^ 63 - 1
    · rw [if_pos hle, if_pos (by unfold UINTMAX_MAX; omega),
        if_pos (by unfold UINTMAX_MAX; omega)]
    · rw [if_neg hle]
      by_cases hu : digitsVal 8 o ≤ UINTMAX_MAX
      · rw [if_pos hu, if_pos hu]
      · rw [if_neg hu, if_neg hu]
  · unfold parse_int
    simp only [intBase_dash m]
    rw [strtoimax_neg_digits 10 m (by omega) hm1 hm2,
      strtoumax_neg_digits 10 m (by omega) hm1 hm2]
    by_cases hle : digitsVal 10 m ≤ 2 ^ 63
    · rw [if_pos hle, if_pos hle]
    · rw [if_neg hle, if_neg hle]
      by_cases hu : digitsVal 10 m ≤ UINTMAX_MAX
      · rw [if_pos hu, if_pos hu]
      · rw [if_neg hu, if_neg hu]

/-- C4 (witness): the spec's four integer examples evaluate to their
base-interpreted values: 42, 0x1F = 31, 0o17 = 15, -5. -/
theorem c4_int_parsing_witness :
    parse_int "42".data = .ok (.int 42)
    ∧ parse_int "0x1F".data = .ok (.int 31)
    ∧ parse_int "0o17".data = .ok (.int 15)
    ∧ parse_int "-5".data = .ok (.int (-5)) :=
  have h := c4_int_parsing ['4', '2'] (by decide) (by decide)
    ['1', 'F'] (by decide) (by decide)
    ['1', '7'] (by decide) (by decide)
    ['5'] (by decide) (by decide)
  ⟨h.1, h.2.1, h.2.2.1, h.2.2.2⟩

/-- C9 (counterexample): the claim says any token other than the entire-token
base-10 numerals of value at most INT_MAX fails with "Invalid file descriptor
number"; but the token "-18446744073709551615" is accepted by the strtoul
conversion of the code (modular negation of ULONG_MAX gives 1) and resolution
proceeds with descriptor number 1. -/
theorem c9_fd_token_counterexample :
    parse_fd_num "-18446744073709551615".data = .ok 1
    ∧ parse_fd sysDefault "-18446744073709551615".data = .ok (.fd 1) := ⟨rfl, rfl⟩

/-- C9 (amended): an existing-descriptor token other than "stdout"/"stderr"
proceeds to the existence probe exactly when the whole token converts under
strtoul base-10 semantics (optional leading whitespace and sign, a minus sign
negating modulo 2^64) to a value at most INT_MAX, and otherwise fails with
the "Invalid file descriptor number" error before the probe: a pure digit
token of value at most INT_MAX is accepted verbatim, one above INT_MAX is
rejected, and a minus-signed digit token is accepted or rejected according to
its value modulo 2^64. -/
theorem c9_fd_token_amended (ds : List Char) (h1 : ds ≠ [])
    (h2 : ∀ c ∈ ds, (digitVal 10 c).isSome) :
    (digitsVal 10 ds ≤ INT_MAX → parse_fd_num ds = .ok (digitsVal 10 ds))
    ∧ (INT_MAX < digitsVal 10 ds → parse_fd_num ds = .error .invalidFdNumber)
    ∧ (digitsVal 10 ds ≤ UINTMAX_MAX →
        parse_fd_num ('-' :: ds)
          = (if (2 ^ 64 - digitsVal 10 ds) % 2 ^ 64 ≤ INT_MAX
             then .ok ((2 ^ 64 - digitsVal 10 ds) % 2 ^ 64)
             else .error .invalidFdNumber))
    ∧ (UINTMAX_MAX < digitsVal 10 ds → parse_fd_num ('-' :: ds) = .error .invalidFdNumber) := by
  have hne1 : ds ≠ "stdout".data := by
    intro he
    rw [he] at h2
    exact absurd (h2 's' (by decide)) (by decide)
  have hne2 : ds ≠ "stderr".data := by
    intro he
    rw [he] at h2
    exact absurd (h2 's' (by decide)) (by decide)
  have hne3 : ('-' :: ds) ≠ "stdout".data := by
    intro he
    simp [show "stdout".data = ['s', 't', 'd', 'o', 'u', 't'] from rfl] at he
  have hne4 : ('-' :: ds) ≠ "stderr".data := by
    intro he
    simp [show "stderr".data = ['s', 't', 'd', 'e', 'r', 'r'] from rfl] at he
  have e1 : parse_fd_num ds
      = match strtoumax ds 10 with
        | none => .error .invalidFdNumber
        | some fd => if fd > INT_MAX then .error .invalidFdNumber else .ok fd := by
    unfold parse_fd_num strtoul10
    rw [if_neg hne1, if_neg hne2]
  have e2 : parse_fd_num ('-' :: ds)
      = match strtoumax ('-' :: ds) 10 with
        | none => .error .invalidFdNumber
        | some fd => if fd > INT_MAX then .error .invalidFdNumber else .ok fd := by
    unfold parse_fd_num strtoul10
    rw [if_neg hne3, if_neg hne4]
  refine ⟨?_, ?_, ?_, ?_⟩
  · intro h
    rw [e1, strtoumax_digits 10 ds (by omega) h1 h2,
      if_pos (by simp only [UINTMAX_MAX, INT_MAX] at *; omega)]
    show (if digitsVal 10 ds > INT_MAX then Except.error Err.invalidFdNumber
          else Except.ok (digitsVal 10 ds)) = Except.ok (digitsVal 10 ds)
    rw [if_neg (by omega)]
  · intro h
    rw [e1, strtoumax_digits 10 ds (by omega) h1 h2]
    by_cases hu : digitsVal 10 ds ≤ UINTMAX_MAX
    · rw [if_pos hu]
      show (if digitsVal 10 ds > INT_MAX then Except.error Err.invalidFdNumber
            else Except.ok (digitsVal 10 ds)) = Except.error Err.invalidFdNumber
      rw [if_pos (by omega)]
    · rw [if_neg hu]
  · intro h
    rw [e2, strtoumax_neg_digits 10 ds (by omega) h1 h2, if_pos h]
    show (if (2 ^ 64 - digitsVal 10 ds) % 2 ^ 64 > INT_MAX then Except.error Err.invalidFdNumber
          else Except.ok ((2 ^ 64 - digitsVal 10 ds) % 2 ^ 64))
        = if (2 ^ 64 - digitsVal 10 ds) % 2 ^ 64 ≤ INT_MAX
          then Except.ok ((2 ^ 64 - digitsVal 10 ds) % 2 ^ 64)
          else Except.error Err.invalidFdNumber
    by_cases hw : (2 ^ 64 - digitsVal 10 ds) % 2 ^ 64 ≤ INT_MAX
    · rw [if_neg (by omega), if_pos hw]
    · rw [if_pos (by omega), if_neg hw]
  · intro h
    rw [e2, strtoumax_neg_digits 10 ds (by omega) h1 h2, if_neg (by omega)]

/-- C9 (witness): the digit token "3" resolves to 3; the signed token "-1"
wraps to 2^64 - 1 which exceeds INT_MAX and is rejected. -/
theorem c9_fd_token_amended_witness :
    parse_fd_num ['3'] = .ok 3
    ∧ parse_fd_num ['-', '1'] = .error .invalidFdNumber :=
  ⟨(c9_fd_token_amended ['3'] (by decide) (by decide)).1 (by decide),
   (c9_fd_token_amended ['1'] (by decide) (by decide)).2.2.1 (by decide)⟩

lemma run_dispatch_exit {sys : Sys} {emu : Bool} {exe : String} {ad : Argdata}
    {c : Nat} {u : Bool} (h : run_dispatch sys emu exe ad = .exit c u) : c = 127 := by
  unfold run_dispatch at h
  split at h
  all_goals try split at h
  all_goals try split at h
  all_goals try split at h
  all_goals try split at h
  all_goals simp_all [Outcome.exit.injEq]

/-- C8: every failing invocation — an unknown option, other than exactly one
positional argument, and every parse, resolution, or dispatch error — exits
with the single fixed status 127, and a usage-error invocation is the one that
prints the usage line on the way out (successful dispatch never returns). -/
theorem c8_failure_exit_status (sys : Sys) (fuel : Nat) (args : List String)
    (events : List Event) (c : Nat) (u : Bool)
    (h : cloudabi_run_main sys fuel args events = .exit c u) :
    c = 127 ∧ (usage_invocation args = true → u = true) := by
  unfold cloudabi_run_main at h
  split at h
  next e heqg =>
    injection h with h1 h2
    exact ⟨h1.symm, fun _ => h2.symm⟩
  next emu pos heqg =>
    split at h
    next hlen =>
      have husage : usage_invocation args = false := by
        simp [usage_invocation, heqg, hlen]
      split at h
      next e hp =>
        injection h with h1 h2
        refine ⟨h1.symm, fun hu => ?_⟩
        rw [husage] at hu
        simp at hu
      next rest hp =>
        injection h with h1 h2
        refine ⟨h1.symm, fun hu => ?_⟩
        rw [husage] at hu
        simp at hu
      next ad rest hp =>
        refine ⟨run_dispatch_exit h, fun hu => ?_⟩
        rw [husage] at hu
        simp at hu
    next hlen =>
      injection h with h1 h2
      exact ⟨h1.symm, fun _ => h2.symm⟩

/-- C8 (witness): the empty invocation (no positional argument) is a usage
error exiting with status 127 and the usage line printed. -/
theorem c8_failure_exit_status_witness :
    (127 : Nat) = 127 ∧ (usage_invocation [] = true → true = true) :=
  c8_failure_exit_status sysDefault 1 [] [] 127 true rfl
